import Mathlib

/-!
# Octant log sink: shallow embedding and verification

Shallow embedding of `internal/log/sink.go` from the octant repository:
the message parser `ConvertBytesToMessage` and the broadcast registry
`OctantSink` (`Write`, `send`, `Close`, `Listen`, and the cancellation
closure returned by `Listen`).  Go channels are modelled as explicit
queue states (the full sequence of messages ever sent, plus a closed
flag and a close counter so that a double `close` is observable); the
random listener identities produced by `rand.String(6)` are modelled as
fresh integer tokens (collision-freedom is assumed, as the identities
are only used as map keys).
-/

namespace Octant

/-! ## Message parser (`ConvertBytesToMessage`) -/

/-- `Message` from sink.go: Date is seconds since epoch, JSON is the
optional payload (zero value `""` when absent). -/
structure Message where
  Date : Int
  LogLevel : String
  Location : String
  Text : String
  JSON : String
deriving DecidableEq

/-- The zero value `Message{}` that the Go function returns together
with an error. -/
def Message.zero : Message := ⟨0, "", "", "", ""⟩

/-- The two parse errors produced by `ConvertBytesToMessage`:
`errors.New("unknown log message format")` and
`fmt.Errorf("invalid log timestamp: %w", err)`. -/
inductive ParseError where
  | malformedRecord
  | invalidTimestamp
deriving DecidableEq

/-- Go `unicode.IsSpace`: the Unicode White_Space code points. -/
def goIsSpace (c : Char) : Bool :=
  c = '\t' || c = '\n' || c.toNat = 0x0B || c.toNat = 0x0C || c = '\r' || c = ' ' ||
  c.toNat = 0x85 || c.toNat = 0xA0 || c.toNat = 0x1680 ||
  (0x2000 ≤ c.toNat && c.toNat ≤ 0x200A) ||
  c.toNat = 0x2028 || c.toNat = 0x2029 || c.toNat = 0x202F ||
  c.toNat = 0x205F || c.toNat = 0x3000

/-- Go `strings.TrimSpace`: drop White_Space characters from both ends. -/
def trimSpaceGo (s : String) : String :=
  String.mk (((s.data.dropWhile goIsSpace).reverse.dropWhile goIsSpace).reverse)

/-- Go `strings.Split` with a one-character separator: cut the list at
every occurrence of `sep`; `n` separators yield `n + 1` fields. -/
def splitSep (sep : Char) : List Char → List (List Char)
  | [] => [[]]
  | c :: cs =>
    if c = sep then [] :: splitSep sep cs
    else
      match splitSep sep cs with
      | [] => [[c]]
      | p :: ps => (c :: p) :: ps

/-- Decimal digit value of a character, `none` when not a digit. -/
def digit? (c : Char) : Option Nat :=
  if '0' ≤ c ∧ c ≤ '9' then some (c.toNat - '0'.toNat) else none

/-- Two-digit zero-padded number, as Go's `getnum` with a two-digit
layout element reads it. -/
def num2 (a b : Char) : Option Nat := do
  pure (10 * (← digit? a) + (← digit? b))

/-- Four-digit year, as Go reads layout element `2006`. -/
def num4 (a b c d : Char) : Option Nat := do
  pure (1000 * (← digit? a) + 100 * (← digit? b) + 10 * (← digit? c) + (← digit? d))

/-- Gregorian leap-year rule used by Go's `time` package. -/
def isLeap (y : Nat) : Bool :=
  y % 4 == 0 && (y % 100 != 0 || y % 400 == 0)

/-- Days in a month, as Go's `time.Parse` uses to range-check the day. -/
def daysInMonth (m y : Nat) : Nat :=
  if m = 2 then (if isLeap y then 29 else 28)
  else if m = 4 ∨ m = 6 ∨ m = 9 ∨ m = 11 then 30
  else 31

/-- Days from the Unix epoch 1970-01-01 to the civil date y-m-d in the
proleptic Gregorian calendar (the classic `days_from_civil` algorithm),
matching Go's internal date-to-absolute-seconds conversion. -/
def daysFromCivil (y m d : Nat) : Int :=
  let yi : Int := if m ≤ 2 then (y : Int) - 1 else (y : Int)
  let era : Int := Int.fdiv yi 400
  let yoe : Int := yi - era * 400
  let mp : Nat := (m + 9) % 12
  let doy : Int := (((153 * mp + 2) / 5 : Nat) : Int) + (d : Int) - 1
  let doe : Int := yoe * 365 + Int.fdiv yoe 4 - Int.fdiv yoe 100 + doy
  era * 146097 + doe - 719468

/-- The `Z0700` tail of the layout: either the literal `Z` (UTC) or a
sign and four digits `±hhmm`, read as an offset in seconds. -/
def parseZoneOffset : List Char → Option Int
  | ['Z'] => some 0
  | [sg, h1, h2, m1, m2] => do
    let hh ← num2 h1 h2
    let mm ← num2 m1 m2
    let mag : Int := hh * 3600 + mm * 60
    if sg = '+' then some mag
    else if sg = '-' then some (-mag)
    else none
  | _ => none

/-- Go `commaOrPeriod`: the two accepted fractional-second separators. -/
def commaOrPeriod (c : Char) : Bool := c = '.' || c = ','

/-- Go `getnum(value, false)` for the non-zero-padded hour layout chunk
`15`: two digits when the second character is also a digit, otherwise a
single digit. Returns the hour and the unconsumed characters. -/
def parseHour : List Char → Option (Nat × List Char)
  | [] => none
  | [c1] => do
    let d1 ← digit? c1
    pure (d1, ([] : List Char))
  | c1 :: c2 :: rest => do
    let d1 ← digit? c1
    match digit? c2 with
    | some d2 => pure (10 * d1 + d2, rest)
    | none => pure (d1, c2 :: rest)

/-- Go `parseNanoseconds` on the three bytes after the separator of the
fixed `.000` layout chunk: they go through `atoi`, so they are three
digits, or a sign followed by two digits — where a `-` sign with a
nonzero value is a fractional-second range error, leaving `-00` as the
only accepted `-`-signed form. The parsed value is dropped by
`Unix()`. -/
def fracSecOK (a b c : Char) : Bool :=
  ((digit? a).isSome && (digit? b).isSome && (digit? c).isSome) ||
  (a == '+' && (digit? b).isSome && (digit? c).isSome) ||
  (a == '-' && digit? b == some 0 && digit? c == some 0)

/-- Go `time.Parse("2006-01-02T15:04:05.000Z0700", s)` followed by
`.Unix()`: four-digit year, fixed two-digit month/day/minute/second,
one-or-two-digit hour (`getnum(value, false)`), a comma-or-period
fractional separator with three `atoi`-read bytes (value dropped by
`Unix()`), and a `Z`-or-`±hhmm` zone, range-checked like Go's parser,
converted to seconds since epoch. -/
def parseTimestamp : List Char → Option Int
  | y1 :: y2 :: y3 :: y4 :: '-' :: o1 :: o2 :: '-' :: d1 :: d2 :: 'T' :: rest => do
    let y ← num4 y1 y2 y3 y4
    let mo ← num2 o1 o2
    let d ← num2 d1 d2
    let (h, rest1) ← parseHour rest
    match rest1 with
    | ':' :: mi1 :: mi2 :: ':' :: s1 :: s2 :: fs :: f1 :: f2 :: f3 :: zone => do
      let mi ← num2 mi1 mi2
      let se ← num2 s1 s2
      if commaOrPeriod fs && fracSecOK f1 f2 f3 then do
        let off ← parseZoneOffset zone
        if 1 ≤ mo ∧ mo ≤ 12 ∧ 1 ≤ d ∧ d ≤ daysInMonth mo y ∧ h ≤ 23 ∧ mi ≤ 59 ∧ se ≤ 59 then
          some (daysFromCivil y mo d * 86400 + (((h * 3600 + mi * 60 + se : Nat)) : Int) - off)
        else none
      else none
    | _ => none
  | _ => none

/-- `ConvertBytesToMessage` from sink.go: trim, split on tab, require 4
or 5 fields, parse field 0 as the timestamp, map fields 1-3 to
level/location/text and field 4 (when present) to the JSON payload.
Returned as the Go pair (message, error): the zero `Message` accompanies
an error. -/
def ConvertBytesToMessage (b : String) : Message × Option ParseError :=
  let parts := splitSep '\t' (trimSpaceGo b).data
  let pLen := parts.length
  if pLen < 4 ∨ pLen > 5 then
    (Message.zero, some ParseError.malformedRecord)
  else
    match parseTimestamp (parts.headD []) with
    | none => (Message.zero, some ParseError.invalidTimestamp)
    | some date =>
      ({ Date := date
         LogLevel := String.mk (parts.getD 1 [])
         Location := String.mk (parts.getD 2 [])
         Text := String.mk (parts.getD 3 [])
         JSON := if pLen > 4 then String.mk (parts.getD 4 []) else "" }, none)

/-! ## Broadcast registry (`OctantSink`)

A Go channel is modelled as the full sequence of messages ever sent on
it (`buf`), a `closed` flag, and `closeCount`, the number of times
`close` was invoked (`closeCount ≥ 2` is the double-close runtime
fault).  The sink state keeps every channel ever created by `Listen` in
`chans`, indexed by its creation order, and `listeners` holds the ids
currently registered in the map (the id of a channel is its index in
`chans`, standing in for the random `rand.String(6)` token). -/

/-- State of one Go channel created by `Listen`. -/
structure ChanState where
  buf : List Message
  closed : Bool
  closeCount : Nat
deriving DecidableEq

/-- A channel as `make(chan Message, 1000)` creates it. -/
def ChanState.new : ChanState := ⟨[], false, 0⟩

/-- Go `close(ch)`. -/
def ChanState.doClose (c : ChanState) : ChanState :=
  { c with closed := true, closeCount := c.closeCount + 1 }

/-- `ch <- m`: the message is appended to the sequence delivered on the
channel. -/
def ChanState.push (c : ChanState) (m : Message) : ChanState :=
  { c with buf := c.buf ++ [m] }

/-- The `OctantSink` registry state: ids currently in the `listeners`
map, and the state of every channel ever created. -/
structure OctantSink where
  listeners : List Nat
  chans : List ChanState
deriving DecidableEq

/-- `NewOctantSink()` with the default converter and no options. -/
def NewOctantSink : OctantSink := ⟨[], []⟩

/-- Apply `f i c` to the channel at each index `i`, starting the count
at `n` (helper for updating `chans` pointwise). -/
def mapFrom (f : Nat → ChanState → ChanState) : Nat → List ChanState → List ChanState
  | _, [] => []
  | n, c :: cs => f n c :: mapFrom f (n + 1) cs

/-- `send`: under the read lock, push `m` onto every channel currently
in the `listeners` map. -/
def OctantSink.send (o : OctantSink) (m : Message) : OctantSink :=
  { o with chans := mapFrom (fun i c => if i ∈ o.listeners then c.push m else c) 0 o.chans }

/-- `Write`: convert the bytes; on error return `(0, err)` untouched,
otherwise `send` to all listeners and return `(len(p), nil)`. -/
def OctantSink.Write (o : OctantSink) (p : String) : OctantSink × Nat × Option ParseError :=
  match ConvertBytesToMessage p with
  | (_, some e) => (o, 0, some e)
  | (m, none) => (o.send m, p.utf8ByteSize, none)

/-- `Close`: close every channel in the map, delete every entry, return
the always-`nil` error. -/
def OctantSink.Close (o : OctantSink) : OctantSink × Option String :=
  ({ listeners := [],
     chans := mapFrom (fun i c => if i ∈ o.listeners then c.doClose else c) 0 o.chans }, none)

/-- `Listen`: create a fresh channel under a fresh id, register it, and
return the new state together with the id (the Go code also returns the
receive handle and the cancel closure; both are determined by the id). -/
def OctantSink.Listen (o : OctantSink) : OctantSink × Nat :=
  let id := o.chans.length
  ({ listeners := o.listeners ++ [id], chans := o.chans ++ [ChanState.new] }, id)

/-- The body of the `ListenCancelFunc` closure returned by `Listen` for
id `id`: `close(ch); delete(o.listeners, id)` — note the close is
unconditional, so running it on an already-closed channel bumps
`closeCount` past 1 (the double-close fault). -/
def OctantSink.cancelListener (o : OctantSink) (id : Nat) : OctantSink :=
  { listeners := o.listeners.filter (fun x => x != id),
    chans := mapFrom (fun i c => if i = id then c.doClose else c) 0 o.chans }

/-! ## Traces of registry operations -/

/-- One externally-invokable operation on a sink. -/
inductive Op where
  | write (p : String)
  | listen
  | cancel (id : Nat)
  | closeAll
deriving DecidableEq

/-- Apply one operation (discarding returned values). -/
def step (o : OctantSink) : Op → OctantSink
  | .write p => (o.Write p).1
  | .listen => o.Listen.1
  | .cancel id => o.cancelListener id
  | .closeAll => o.Close.1

/-- Run a list of operations in order. -/
def run (o : OctantSink) (ops : List Op) : OctantSink :=
  ops.foldl step o

/-- The messages of the successful `write` operations of a trace, in
order: exactly what a continuously-registered listener should see. -/
def successfulMsgs : List Op → List Message
  | [] => []
  | .write p :: rest =>
    match ConvertBytesToMessage p with
    | (m, none) => m :: successfulMsgs rest
    | (_, some _) => successfulMsgs rest
  | _ :: rest => successfulMsgs rest

/-- The registry invariant of the spec: every id in the `listeners` map
has an open, never-closed channel; a channel whose id has been removed
from the map has been closed exactly once. -/
def Inv (o : OctantSink) : Prop :=
  (∀ id ∈ o.listeners, ∃ c, o.chans[id]? = some c ∧ c.closed = false ∧ c.closeCount = 0) ∧
  (∀ id c, o.chans[id]? = some c → id ∉ o.listeners → c.closeCount = 1)

/-! ## Parser-level claims -/

/-- Shared helper: a field count outside 4..5 makes `Write` fail with
the malformed-record error and an unchanged sink. -/
theorem write_malformed_aux (o : OctantSink) (p : String)
    (h : (splitSep '\t' (trimSpaceGo p).data).length < 4 ∨
         (splitSep '\t' (trimSpaceGo p).data).length > 5) :
    o.Write p = (o, 0, some ParseError.malformedRecord) := by
  have hc : ConvertBytesToMessage p = (Message.zero, some ParseError.malformedRecord) := by
    simp only [ConvertBytesToMessage]
    rw [if_pos h]
  unfold OctantSink.Write
  rw [hc]

/-- C1: for every input whose trimmed, tab-split form has fewer than 4
or more than 5 fields, `Write` returns the malformed-record error with
0 bytes consumed and leaves the sink state — hence every subscriber's
queue — untouched. -/
theorem write_rejects_bad_field_count (o : OctantSink) (p : String)
    (h : (splitSep '\t' (trimSpaceGo p).data).length < 4 ∨
         (splitSep '\t' (trimSpaceGo p).data).length > 5) :
    o.Write p = (o, 0, some ParseError.malformedRecord) :=
  write_malformed_aux o p h

/-- Witness for C1: the spec's own example record `"garbage"` (one
field) is rejected by a sink with one registered listener, whose state
is unchanged. -/
theorem write_rejects_bad_field_count_witness :
    (NewOctantSink.Listen.1).Write "garbage"
      = (NewOctantSink.Listen.1, 0, some ParseError.malformedRecord) :=
  write_rejects_bad_field_count NewOctantSink.Listen.1 "garbage" (by decide)

/-- C3: for every input that splits into 4 or 5 fields but whose field
0 fails the fixed timestamp format, `Write` returns the
invalid-timestamp error with 0 bytes consumed and leaves the sink
state — hence every subscriber's queue — untouched. -/
theorem write_rejects_invalid_timestamp (o : OctantSink) (p : String)
    (hlen : 4 ≤ (splitSep '\t' (trimSpaceGo p).data).length ∧
            (splitSep '\t' (trimSpaceGo p).data).length ≤ 5)
    (hts : parseTimestamp ((splitSep '\t' (trimSpaceGo p).data).headD []) = none) :
    o.Write p = (o, 0, some ParseError.invalidTimestamp) := by
  have hc : ConvertBytesToMessage p = (Message.zero, some ParseError.invalidTimestamp) := by
    simp only [ConvertBytesToMessage]
    rw [if_neg (by omega), hts]
  unfold OctantSink.Write
  rw [hc]

/-- Witness for C3: a 4-field record with a non-timestamp field 0 is
rejected as an invalid timestamp, with the one-listener sink unchanged. -/
theorem write_rejects_invalid_timestamp_witness :
    (NewOctantSink.Listen.1).Write "garbage\ta\tb\tc"
      = (NewOctantSink.Listen.1, 0, some ParseError.invalidTimestamp) :=
  write_rejects_invalid_timestamp NewOctantSink.Listen.1 "garbage\ta\tb\tc"
    (by decide) (by decide)

/-- C4: parsing the concrete record
`"2020-05-01T10:00:00.000Z\terror\tmain.go:42\tsomething failed"`
succeeds and yields exactly the unix-seconds value 1588327200 of
2020-05-01T10:00:00Z, level `"error"`, location `"main.go:42"`, text
`"something failed"`, and an absent (empty) payload. -/
theorem convert_example_record :
    ConvertBytesToMessage "2020-05-01T10:00:00.000Z\terror\tmain.go:42\tsomething failed"
      = (⟨1588327200, "error", "main.go:42", "something failed", ""⟩, none) := by
  decide

/-- C5: for every input that parses successfully, `Write` broadcasts
and returns the byte length of the input together with no error —
whatever the registered subscribers are (including none). -/
theorem write_success_returns_length (o : OctantSink) (p : String)
    (h : (ConvertBytesToMessage p).2 = none) :
    o.Write p = (o.send (ConvertBytesToMessage p).1, p.utf8ByteSize, none) := by
  unfold OctantSink.Write
  rcases hcv : ConvertBytesToMessage p with ⟨m, e⟩
  rw [hcv] at h
  cases e with
  | none => rfl
  | some e => exact absurd h (by simp)

/-- Witness for C5: a well-formed record is accepted by the empty sink
and `Write` reports its full byte length with no error. -/
theorem write_success_returns_length_witness :
    NewOctantSink.Write "2021-01-02T03:04:05.006Z\tinfo\ta.go:1\thi"
      = (NewOctantSink.send
          (ConvertBytesToMessage "2021-01-02T03:04:05.006Z\tinfo\ta.go:1\thi").1,
         "2021-01-02T03:04:05.006Z\tinfo\ta.go:1\thi".utf8ByteSize, none) ∧
    "2021-01-02T03:04:05.006Z\tinfo\ta.go:1\thi".utf8ByteSize = 39 :=
  ⟨write_success_returns_length NewOctantSink "2021-01-02T03:04:05.006Z\tinfo\ta.go:1\thi"
    (by decide), by decide⟩

/-- C10: a record that splits into exactly 4 fields and parses
successfully gets the empty string as its JSON payload (absence is
`""`), and whenever parsing fails the zero `Message` is returned
alongside the error. -/
theorem convert_payload_default_and_zero_on_error (p : String) :
    ((splitSep '\t' (trimSpaceGo p).data).length = 4 →
      (ConvertBytesToMessage p).2 = none → (ConvertBytesToMessage p).1.JSON = "") ∧
    (∀ e, (ConvertBytesToMessage p).2 = some e →
      (ConvertBytesToMessage p).1 = Message.zero) := by
  simp only [ConvertBytesToMessage]
  split
  · exact ⟨fun _ hn => absurd hn (by simp), fun e _ => rfl⟩
  · split
    · exact ⟨fun _ hn => absurd hn (by simp), fun e _ => rfl⟩
    · refine ⟨fun h4 _ => ?_, fun e he => absurd he (by simp)⟩
      show (if (splitSep '\t' (trimSpaceGo p).data).length > 4 then _ else "") = ""
      rw [if_neg (by omega)]

/-- Witness for C10: a concrete 4-field record gets `JSON = ""`, and a
concrete malformed record yields the zero `Message`. -/
theorem convert_payload_default_and_zero_on_error_witness :
    (ConvertBytesToMessage "2020-05-01T10:00:00.000Z\te\tl\tt").1.JSON = "" ∧
    (ConvertBytesToMessage "junk").1 = Message.zero :=
  ⟨(convert_payload_default_and_zero_on_error "2020-05-01T10:00:00.000Z\te\tl\tt").1
      (by decide) (by decide),
   (convert_payload_default_and_zero_on_error "junk").2
      ParseError.malformedRecord (by decide)⟩

/-! ## C2: embedded separators in the payload -/

/-- `splitSep` always yields at least one field. -/
theorem splitSep_ne_nil (sep : Char) (l : List Char) : splitSep sep l ≠ [] := by
  cases l with
  | nil => simp [splitSep]
  | cons c cs =>
    simp only [splitSep]
    split
    · simp
    · split
      · simp
      · simp

/-- Splitting at a separator that closes a separator-free first field
peels that field off. -/
theorem splitSep_append (sep : Char) (a r : List Char) (ha : sep ∉ a) :
    splitSep sep (a ++ sep :: r) = a :: splitSep sep r := by
  induction a with
  | nil => simp [splitSep]
  | cons c a ih =>
    have hc : ¬c = sep := fun h => ha (h ▸ List.mem_cons_self c a)
    have ha' : sep ∉ a := fun h => ha (List.mem_cons_of_mem c h)
    simp only [List.cons_append, splitSep, if_neg hc]
    rw [List.append_eq, ih ha']

/-- A list containing the separator splits into at least two fields. -/
theorem splitSep_two_le_of_mem (sep : Char) (l : List Char) (h : sep ∈ l) :
    2 ≤ (splitSep sep l).length := by
  induction l with
  | nil => cases h
  | cons c cs ih =>
    simp only [splitSep]
    by_cases hc : c = sep
    · rw [if_pos hc]
      have := splitSep_ne_nil sep cs
      cases hs : splitSep sep cs with
      | nil => exact absurd hs this
      | cons p ps => simp
    · rw [if_neg hc]
      have hcs : sep ∈ cs := by
        cases h with
        | head => exact absurd rfl hc
        | tail _ h => exact h
      cases hs : splitSep sep cs with
      | nil => exact absurd hs (splitSep_ne_nil sep cs)
      | cons p ps =>
        have := ih hcs
        rw [hs] at this
        simpa using this

/-- C2 counterexample: a record whose text after the 4th separator,
`"pay\tload"`, contains the separator is not accepted — the code
re-splits everything and rejects the 6-field result as malformed,
contrary to the claim that such records are accepted with the payload
carried verbatim. -/
theorem convert_embedded_separator_counterexample :
    ConvertBytesToMessage "2020-05-01T10:00:00.000Z\terror\tmain.go:42\ttext\tpay\tload"
      = (Message.zero, some ParseError.malformedRecord) := by
  decide

/-- C2 amended: for every record of shape
`t0\tt1\tt2\tt3\tpayload` (after trimming, with `t0..t3` separator-free)
whose payload contains an embedded separator, the split yields more
than 5 fields, so `Write` rejects the record as malformed with the
sink untouched — the payload is never carried through verbatim. -/
theorem write_rejects_embedded_separator_in_payload (o : OctantSink) (p : String)
    (t0 t1 t2 t3 payload : List Char)
    (h0 : '\t' ∉ t0) (h1 : '\t' ∉ t1) (h2 : '\t' ∉ t2) (h3 : '\t' ∉ t3)
    (hp : '\t' ∈ payload)
    (htrim : (trimSpaceGo p).data
      = t0 ++ '\t' :: (t1 ++ '\t' :: (t2 ++ '\t' :: (t3 ++ '\t' :: payload)))) :
    o.Write p = (o, 0, some ParseError.malformedRecord) := by
  apply write_malformed_aux
  rw [htrim, splitSep_append _ _ _ h0, splitSep_append _ _ _ h1,
    splitSep_append _ _ _ h2, splitSep_append _ _ _ h3]
  have := splitSep_two_le_of_mem '\t' payload hp
  right
  simp only [List.length_cons]
  omega

/-- Witness for the amended C2: a concrete record with a tab inside
the payload is rejected by the empty sink. -/
theorem write_rejects_embedded_separator_in_payload_witness :
    NewOctantSink.Write "2020-05-01T10:00:00.000Z\te\tl\tt\tpay\tload"
      = (NewOctantSink, 0, some ParseError.malformedRecord) :=
  write_rejects_embedded_separator_in_payload NewOctantSink
    "2020-05-01T10:00:00.000Z\te\tl\tt\tpay\tload"
    ("2020-05-01T10:00:00.000Z".data) ("e".data) ("l".data) ("t".data)
    ("pay\tload".data)
    (by decide) (by decide) (by decide) (by decide) (by decide) (by decide)

/-! ## Registry claims -/

/-- `mapFrom` keeps the length of the channel table. -/
theorem mapFrom_length (f : Nat → ChanState → ChanState) (n : Nat) (l : List ChanState) :
    (mapFrom f n l).length = l.length := by
  induction l generalizing n with
  | nil => rfl
  | cons c cs ih => simp [mapFrom, ih]

/-- Pointwise reading of `mapFrom`. -/
theorem mapFrom_getElem? (f : Nat → ChanState → ChanState) (n : Nat) (l : List ChanState)
    (i : Nat) : (mapFrom f n l)[i]? = (l[i]?).map (f (n + i)) := by
  induction l generalizing n i with
  | nil => simp [mapFrom]
  | cons c cs ih =>
    cases i with
    | zero => simp [mapFrom]
    | succ i =>
      simp only [mapFrom, List.getElem?_cons_succ, ih]
      have harith : n + 1 + i = n + (i + 1) := by omega
      rw [harith]

/-- C7: `Close` closes every channel whose id is still in the map,
empties the map, and returns the always-`nil` error; a `Listen` right
after `Close` succeeds, registering a single fresh open channel. -/
theorem close_clears_and_listen_fresh (o : OctantSink) :
    o.Close.2 = none ∧
    o.Close.1.listeners = [] ∧
    (∀ id, id ∈ o.listeners → o.Close.1.chans[id]? = (o.chans[id]?).map ChanState.doClose) ∧
    o.Close.1.Listen.1.listeners = [o.Close.1.Listen.2] ∧
    o.Close.1.Listen.1.chans[o.Close.1.Listen.2]? = some ChanState.new := by
  refine ⟨rfl, rfl, ?_, ?_, ?_⟩
  · intro id hid
    show (mapFrom (fun i c => if i ∈ o.listeners then c.doClose else c) 0 o.chans)[id]? = _
    rw [mapFrom_getElem?]
    cases hc : o.chans[id]? with
    | none => rfl
    | some c => simp [hid]
  · simp [OctantSink.Listen, OctantSink.Close]
  · show (o.Close.1.chans ++ [ChanState.new])[o.Close.1.chans.length]? = some ChanState.new
    exact List.getElem?_concat_length _ _

/-- Witness for C7: on a sink with one listener, `Close` returns no
error, clears the map, leaves the one channel closed exactly once, and
a subsequent `Listen` registers exactly one fresh open channel. -/
theorem close_clears_and_listen_fresh_witness :
    NewOctantSink.Listen.1.Close.2 = none ∧
    NewOctantSink.Listen.1.Close.1.listeners = [] ∧
    NewOctantSink.Listen.1.Close.1.chans[0]? = some ⟨[], true, 1⟩ ∧
    NewOctantSink.Listen.1.Close.1.Listen.1.listeners
      = [NewOctantSink.Listen.1.Close.1.Listen.2] ∧
    NewOctantSink.Listen.1.Close.1.Listen.1.chans[NewOctantSink.Listen.1.Close.1.Listen.2]?
      = some ChanState.new :=
  ⟨(close_clears_and_listen_fresh NewOctantSink.Listen.1).1,
   (close_clears_and_listen_fresh NewOctantSink.Listen.1).2.1,
   (close_clears_and_listen_fresh NewOctantSink.Listen.1).2.2.1 0 (by decide),
   (close_clears_and_listen_fresh NewOctantSink.Listen.1).2.2.2.1,
   (close_clears_and_listen_fresh NewOctantSink.Listen.1).2.2.2.2⟩

/-- C9: the cancellation closure, run on its live subscription, closes
the channel and removes the id from the map; running the same closure a
second time closes the already-closed channel again (`closeCount = 2`,
the double-close fault), so it must not be called twice. -/
theorem cancel_closes_then_double_closes (o : OctantSink) (id : Nat) (c : ChanState)
    (_hmem : id ∈ o.listeners) (hc : o.chans[id]? = some c)
    (hopen : c.closed = false) (hcnt : c.closeCount = 0) :
    id ∉ (o.cancelListener id).listeners ∧
    (o.cancelListener id).chans[id]? = some ⟨c.buf, true, 1⟩ ∧
    ((o.cancelListener id).cancelListener id).chans[id]? = some ⟨c.buf, true, 2⟩ := by
  have hfirst : (o.cancelListener id).chans[id]? = some ⟨c.buf, true, 1⟩ := by
    show (mapFrom (fun i c => if i = id then c.doClose else c) 0 o.chans)[id]? = _
    rw [mapFrom_getElem?, hc]
    cases c
    simp_all [ChanState.doClose]
  refine ⟨?_, hfirst, ?_⟩
  · intro hmem'
    have := List.of_mem_filter hmem'
    simp at this
  · show (mapFrom (fun i c => if i = id then c.doClose else c) 0
      (o.cancelListener id).chans)[id]? = _
    rw [mapFrom_getElem?, hfirst]
    simp [ChanState.doClose]

/-- Witness for C9: on the one-listener sink, the first cancellation
closes the queue once and unregisters it; the second closes it again. -/
theorem cancel_closes_then_double_closes_witness :
    0 ∉ (NewOctantSink.Listen.1.cancelListener 0).listeners ∧
    (NewOctantSink.Listen.1.cancelListener 0).chans[0]? = some ⟨[], true, 1⟩ ∧
    ((NewOctantSink.Listen.1.cancelListener 0).cancelListener 0).chans[0]? = some ⟨[], true, 2⟩ :=
  cancel_closes_then_double_closes NewOctantSink.Listen.1 0 ChanState.new
    (by decide) rfl rfl rfl

/-- An index holding a channel is inside the channel table. -/
theorem lt_length_of_getElem?_some {l : List ChanState} {i : Nat} {c : ChanState}
    (hc : l[i]? = some c) : i < l.length := by
  by_contra hge
  rw [List.getElem?_eq_none (by omega)] at hc
  cases hc

/-- `send` preserves the registry invariant. -/
theorem send_preserves_Inv (o : OctantSink) (m : Message) (h : Inv o) : Inv (o.send m) := by
  constructor
  · intro id hid
    have hid' : id ∈ o.listeners := hid
    obtain ⟨c, hc, hcl, hcnt⟩ := h.1 id hid'
    refine ⟨c.push m, ?_, hcl, hcnt⟩
    show (mapFrom (fun i c => if i ∈ o.listeners then c.push m else c) 0 o.chans)[id]? = _
    rw [mapFrom_getElem?, hc]
    simp [hid']
  · intro id c hc hnl
    have hnl' : id ∉ o.listeners := hnl
    rw [show (o.send m).chans
        = mapFrom (fun i c => if i ∈ o.listeners then c.push m else c) 0 o.chans from rfl,
      mapFrom_getElem?] at hc
    cases hc0 : o.chans[id]? with
    | none => rw [hc0] at hc; cases hc
    | some c0 =>
      rw [hc0] at hc
      simp only [Option.map_some', Option.some.injEq, Nat.zero_add] at hc
      rw [if_neg hnl'] at hc
      exact hc ▸ h.2 id c0 hc0 hnl'

/-- `Listen` preserves the registry invariant. -/
theorem listen_preserves_Inv (o : OctantSink) (h : Inv o) : Inv o.Listen.1 := by
  constructor
  · intro id hid
    rcases List.mem_append.mp hid with hin | hnew
    · obtain ⟨c, hc, hcl, hcnt⟩ := h.1 id hin
      refine ⟨c, ?_, hcl, hcnt⟩
      show (o.chans ++ [ChanState.new])[id]? = some c
      rw [List.getElem?_append_left (lt_length_of_getElem?_some hc)]
      exact hc
    · have hid' : id = o.chans.length := by simpa using hnew
      refine ⟨ChanState.new, ?_, rfl, rfl⟩
      show (o.chans ++ [ChanState.new])[id]? = some ChanState.new
      rw [hid']
      exact List.getElem?_concat_length _ _
  · intro id c hc hnl
    have hne : id ≠ o.chans.length := by
      intro he
      exact hnl (List.mem_append.mpr (Or.inr (by simp [OctantSink.Listen, he])))
    have hlt : id < o.chans.length + 1 := by
      have := lt_length_of_getElem?_some hc
      simpa [OctantSink.Listen] using this
    have hlt' : id < o.chans.length := by omega
    have hc' : o.chans[id]? = some c := by
      rw [show o.Listen.1.chans = o.chans ++ [ChanState.new] from rfl,
        List.getElem?_append_left hlt'] at hc
      exact hc
    have hnl' : id ∉ o.listeners := fun hm =>
      hnl (List.mem_append.mpr (Or.inl hm))
    exact h.2 id c hc' hnl'

/-- The cancellation closure, applied to a registered id, preserves the
registry invariant. -/
theorem cancel_preserves_Inv (o : OctantSink) (id : Nat) (hmem : id ∈ o.listeners)
    (h : Inv o) : Inv (o.cancelListener id) := by
  constructor
  · intro j hj
    have hj' := List.of_mem_filter hj
    have hjne : j ≠ id := by simpa using hj'
    have hjin : j ∈ o.listeners := List.mem_of_mem_filter hj
    obtain ⟨c, hc, hcl, hcnt⟩ := h.1 j hjin
    refine ⟨c, ?_, hcl, hcnt⟩
    show (mapFrom (fun i c => if i = id then c.doClose else c) 0 o.chans)[j]? = some c
    rw [mapFrom_getElem?, hc]
    simp [hjne]
  · intro j c hc hnl
    rw [show (o.cancelListener id).chans
        = mapFrom (fun i c => if i = id then c.doClose else c) 0 o.chans from rfl,
      mapFrom_getElem?] at hc
    cases hc0 : o.chans[j]? with
    | none => rw [hc0] at hc; cases hc
    | some c0 =>
      rw [hc0] at hc
      simp only [Option.map_some', Option.some.injEq, Nat.zero_add] at hc
      by_cases hj : j = id
      · obtain ⟨c1, hc1, hcl1, hcnt1⟩ := h.1 id hmem
        rw [hj, hc1] at hc0
        injection hc0 with he
        have hcnt0 : c0.closeCount = 0 := he ▸ hcnt1
        rw [if_pos hj] at hc
        rw [←hc]
        simp [ChanState.doClose, hcnt0]
      · rw [if_neg hj] at hc
        have hnl' : j ∉ o.listeners := by
          intro hm
          exact hnl (List.mem_filter.mpr ⟨hm, by simpa using hj⟩)
        exact hc ▸ h.2 j c0 hc0 hnl'

/-- `Close` preserves the registry invariant. -/
theorem close_preserves_Inv (o : OctantSink) (h : Inv o) : Inv o.Close.1 := by
  constructor
  · intro id hid
    cases hid
  · intro j c hc _
    rw [show o.Close.1.chans
        = mapFrom (fun i c => if i ∈ o.listeners then c.doClose else c) 0 o.chans from rfl,
      mapFrom_getElem?] at hc
    cases hc0 : o.chans[j]? with
    | none => rw [hc0] at hc; cases hc
    | some c0 =>
      rw [hc0] at hc
      simp only [Option.map_some', Option.some.injEq, Nat.zero_add] at hc
      by_cases hj : j ∈ o.listeners
      · obtain ⟨c1, hc1, hcl1, hcnt1⟩ := h.1 j hj
        rw [hc1] at hc0
        injection hc0 with he
        have hcnt0 : c0.closeCount = 0 := he ▸ hcnt1
        rw [if_pos hj] at hc
        rw [←hc]
        simp [ChanState.doClose, hcnt0]
      · rw [if_neg hj] at hc
        exact hc ▸ h.2 j c0 hc0 hj

/-- `Write` preserves the registry invariant. -/
theorem write_preserves_Inv (o : OctantSink) (p : String) (h : Inv o) : Inv (o.Write p).1 := by
  unfold OctantSink.Write
  rcases hcv : ConvertBytesToMessage p with ⟨m, e⟩
  cases e with
  | some e => exact h
  | none => exact send_preserves_Inv o m h

/-- `Write` never touches a closed channel. -/
theorem write_skips_closed (o : OctantSink) (p : String) (i : Nat) (c : ChanState)
    (h : Inv o) (hc : o.chans[i]? = some c) (hcl : c.closed = true) :
    (o.Write p).1.chans[i]? = some c := by
  have hni : i ∉ o.listeners := by
    intro hmem
    obtain ⟨c', hc', hcl', _⟩ := h.1 i hmem
    rw [hc] at hc'
    injection hc' with e
    rw [←e, hcl] at hcl'
    cases hcl'
  unfold OctantSink.Write
  rcases hcv : ConvertBytesToMessage p with ⟨m, e⟩
  cases e with
  | some e => exact hc
  | none =>
    show (mapFrom (fun i c => if i ∈ o.listeners then c.push m else c) 0 o.chans)[i]? = some c
    rw [mapFrom_getElem?, hc]
    simp [hni]

/-- C8: the registry invariant — every mapped id has an open,
never-closed channel, and every unmapped channel has been closed
exactly once — is preserved by `Write` (ingest), `Listen` (subscribe),
the cancellation closure applied to its live registration, and `Close`
(shutdown); moreover `Write` never pushes onto a closed channel. -/
theorem registry_invariant_preserved (o : OctantSink) (h : Inv o) :
    (∀ p, Inv (o.Write p).1) ∧
    Inv o.Listen.1 ∧
    (∀ id, id ∈ o.listeners → Inv (o.cancelListener id)) ∧
    Inv o.Close.1 ∧
    (∀ (p : String) (i : Nat) (c : ChanState),
      o.chans[i]? = some c → c.closed = true → (o.Write p).1.chans[i]? = some c) :=
  ⟨fun p => write_preserves_Inv o p h,
   listen_preserves_Inv o h,
   fun id hm => cancel_preserves_Inv o id hm h,
   close_preserves_Inv o h,
   fun p i c hc hcl => write_skips_closed o p i c h hc hcl⟩

/-- Witness for C8: the empty sink satisfies the invariant, and the
theorem applies to it, e.g. after a `Listen` and after cancelling that
listener. -/
theorem registry_invariant_preserved_witness :
    Inv NewOctantSink.Listen.1 ∧ Inv (NewOctantSink.Listen.1.cancelListener 0) :=
  have hinv : Inv NewOctantSink := by
    constructor
    · intro id hid
      cases hid
    · intro id c hc
      cases hc
  have h1 : Inv NewOctantSink.Listen.1 :=
    (registry_invariant_preserved NewOctantSink hinv).2.1
  ⟨h1, (registry_invariant_preserved NewOctantSink.Listen.1 h1).2.2.1 0 (by decide)⟩

/-! ## C6: per-subscriber delivery sequence -/

/-- Unfolding of `run` one step at a time. -/
theorem run_cons (o : OctantSink) (op : Op) (ops : List Op) :
    run o (op :: ops) = run (step o op) ops := rfl

/-- A successful write contributes its message to the trace sequence. -/
theorem successfulMsgs_write_ok (p : String) (m : Message) (rest : List Op)
    (h : ConvertBytesToMessage p = (m, none)) :
    successfulMsgs (Op.write p :: rest) = m :: successfulMsgs rest := by
  simp only [successfulMsgs, h]

/-- A failed write contributes nothing to the trace sequence. -/
theorem successfulMsgs_write_err (p : String) (m : Message) (e : ParseError) (rest : List Op)
    (h : ConvertBytesToMessage p = (m, some e)) :
    successfulMsgs (Op.write p :: rest) = successfulMsgs rest := by
  simp only [successfulMsgs, h]

/-- A successful write steps the sink by `send`. -/
theorem step_write_ok (o : OctantSink) (p : String) (m : Message)
    (h : ConvertBytesToMessage p = (m, none)) :
    step o (Op.write p) = o.send m := by
  simp only [step, OctantSink.Write, h]

/-- A failed write leaves the sink unchanged. -/
theorem step_write_err (o : OctantSink) (p : String) (m : Message) (e : ParseError)
    (h : ConvertBytesToMessage p = (m, some e)) :
    step o (Op.write p) = o := by
  simp only [step, OctantSink.Write, h]

/-- `listen` steps the sink by `Listen`. -/
theorem step_listen (o : OctantSink) : step o Op.listen = o.Listen.1 := rfl

/-- `cancel j` steps the sink by the cancellation closure for `j`. -/
theorem step_cancel (o : OctantSink) (j : Nat) :
    step o (Op.cancel j) = o.cancelListener j := rfl

/-- A trace without `closeAll` and without a cancellation of `id`, run
from a state in which `id` is registered, keeps `id` registered and
appends to `id`'s channel exactly the messages of the successful
writes, in order, touching neither its closed flag nor its close
count. -/
theorem run_keeps_queue (ops : List Op) : ∀ (o : OctantSink) (id : Nat),
    id ∈ o.listeners → id < o.chans.length →
    (∀ j, Op.cancel j ∈ ops → j ≠ id) → Op.closeAll ∉ ops →
    id ∈ (run o ops).listeners ∧ id < (run o ops).chans.length ∧
    (run o ops).chans[id]? = (o.chans[id]?).map
      (fun c => ⟨c.buf ++ successfulMsgs ops, c.closed, c.closeCount⟩) := by
  induction ops with
  | nil =>
    intro o id hmem hlt _ _
    refine ⟨hmem, hlt, ?_⟩
    show o.chans[id]? = (o.chans[id]?).map
      (fun c => ⟨c.buf ++ successfulMsgs [], c.closed, c.closeCount⟩)
    cases hc : o.chans[id]? with
    | none => rfl
    | some c => cases c; simp [successfulMsgs]
  | cons op rest ih =>
    intro o id hmem hlt hnc hncl
    have hnc' : ∀ j, Op.cancel j ∈ rest → j ≠ id :=
      fun j hj => hnc j (List.mem_cons_of_mem _ hj)
    have hncl' : Op.closeAll ∉ rest := fun hm => hncl (List.mem_cons_of_mem _ hm)
    cases op with
    | write p =>
      rcases hcv : ConvertBytesToMessage p with ⟨m, e⟩
      cases e with
      | some e =>
        rw [run_cons, step_write_err o p m e hcv, successfulMsgs_write_err p m e rest hcv]
        exact ih o id hmem hlt hnc' hncl'
      | none =>
        rw [run_cons, step_write_ok o p m hcv, successfulMsgs_write_ok p m rest hcv]
        have hlt1 : id < (o.send m).chans.length := by
          show id < (mapFrom _ 0 o.chans).length
          rw [mapFrom_length]
          exact hlt
        obtain ⟨hm2, hlt2, hq2⟩ := ih (o.send m) id hmem hlt1 hnc' hncl'
        refine ⟨hm2, hlt2, ?_⟩
        rw [hq2]
        rw [show (o.send m).chans
            = mapFrom (fun i c => if i ∈ o.listeners then c.push m else c) 0 o.chans from rfl,
          mapFrom_getElem?]
        cases hc : o.chans[id]? with
        | none => rfl
        | some c =>
          cases c
          simp [ChanState.push, hmem, List.append_assoc]
    | listen =>
      rw [run_cons, step_listen,
        show successfulMsgs (Op.listen :: rest) = successfulMsgs rest from rfl]
      have hm1 : id ∈ o.Listen.1.listeners := List.mem_append.mpr (Or.inl hmem)
      have hlt1 : id < o.Listen.1.chans.length := by
        show id < (o.chans ++ [ChanState.new]).length
        simp
        omega
      obtain ⟨hm2, hlt2, hq2⟩ := ih o.Listen.1 id hm1 hlt1 hnc' hncl'
      refine ⟨hm2, hlt2, ?_⟩
      rw [hq2]
      congr 1
      show (o.chans ++ [ChanState.new])[id]? = o.chans[id]?
      exact List.getElem?_append_left hlt
    | cancel j =>
      have hj : j ≠ id := hnc j (List.mem_cons_self _ _)
      have hj' : id ≠ j := fun h => hj h.symm
      rw [run_cons, step_cancel,
        show successfulMsgs (Op.cancel j :: rest) = successfulMsgs rest from rfl]
      have hm1 : id ∈ (o.cancelListener j).listeners :=
        List.mem_filter.mpr ⟨hmem, by simpa using hj'⟩
      have hlt1 : id < (o.cancelListener j).chans.length := by
        show id < (mapFrom _ 0 o.chans).length
        rw [mapFrom_length]
        exact hlt
      obtain ⟨hm2, hlt2, hq2⟩ := ih (o.cancelListener j) id hm1 hlt1 hnc' hncl'
      refine ⟨hm2, hlt2, ?_⟩
      rw [hq2]
      congr 1
      show (mapFrom (fun i c => if i = j then c.doClose else c) 0 o.chans)[id]? = o.chans[id]?
      rw [mapFrom_getElem?]
      cases hc : o.chans[id]? with
      | none => rfl
      | some c => simp [hj']
    | closeAll => exact absurd (List.mem_cons_self _ _) hncl

/-- C6: the queue of a subscriber created by `Listen` after an
arbitrary operation prefix holds, after any further operations that
neither cancel it nor shut the sink down, exactly the successfully
ingested messages of those later operations, in ingest order — it
starts empty (no replay of messages broadcast before the subscribe)
and stays open. -/
theorem subscriber_queue_is_later_ingests (pre post : List Op)
    (hnc : ∀ j, Op.cancel j ∈ post → j ≠ (run NewOctantSink pre).Listen.2)
    (hncl : Op.closeAll ∉ post) :
    (run ((run NewOctantSink pre).Listen.1) post).chans[(run NewOctantSink pre).Listen.2]?
      = some ⟨successfulMsgs post, false, 0⟩ := by
  set o := run NewOctantSink pre with ho
  have hmem : o.Listen.2 ∈ o.Listen.1.listeners := by
    show o.Listen.2 ∈ o.listeners ++ [o.chans.length]
    simp [OctantSink.Listen]
  have hlt : o.Listen.2 < o.Listen.1.chans.length := by
    show o.chans.length < (o.chans ++ [ChanState.new]).length
    simp
  obtain ⟨_, _, hq⟩ := run_keeps_queue post o.Listen.1 o.Listen.2 hmem hlt hnc hncl
  rw [hq]
  rw [show o.Listen.1.chans[o.Listen.2]? = some ChanState.new
    from List.getElem?_concat_length _ _]
  rfl

/-- Witness for C6: subscribing to the fresh sink and then ingesting
one well-formed record leaves exactly that parsed message in the
subscriber's still-open queue. -/
theorem subscriber_queue_is_later_ingests_witness :
    (run ((run NewOctantSink []).Listen.1)
        [Op.write "2020-05-01T10:00:00.000Z\terror\tmain.go:42\tsomething failed"]).chans[
      (run NewOctantSink []).Listen.2]?
      = some ⟨[⟨1588327200, "error", "main.go:42", "something failed", ""⟩], false, 0⟩ :=
  subscriber_queue_is_later_ingests []
    [Op.write "2020-05-01T10:00:00.000Z\terror\tmain.go:42\tsomething failed"]
    (by
      intro j hj
      simp at hj)
    (by decide)

end Octant
